import Mathlib

/-!
Shallow embedding of the pyshare local file-transfer utility.

The repository has four Python entry points:
- `pyshare.py` — a Textual TUI front end around a session controller;
- `pyshare_cli.py` — a minimal REPL front end around the same controller logic;
- `pyshare_rich.py` — a Rich TUI front end, controller logic identical to the CLI;
- `pyshare_recv.py` — the receiver client (list files, select, download).

The controller logic (`start_server`, `stop_server`, the `dir` and `port`
command branches) is shared, up to cosmetic output, between the three front
ends; we embed the `PyShareCLI` variant and note divergences where they
matter.  External effects are made explicit parameters: the filesystem is an
`isDir` oracle and a path-to-contents map, the network address a string the
environment supplies, and the server process an explicit record carried in
the state (the deterministic model has no spontaneous process death, matching
the lifecycle the controller itself drives).
-/

namespace PyShare

/-- Model of Python `str.startswith`: prefix test on the character lists. -/
def strStartsWith (s p : String) : Bool := p.data.isPrefixOf s.data

/-- Model of Python `str.endswith`: suffix test on the character lists. -/
def strEndsWith (s p : String) : Bool := p.data.reverse.isPrefixOf s.data.reverse

/-- Model of Python `str.strip()`: drop whitespace from both ends. -/
def pyStrip (s : String) : String :=
  String.mk (((s.data.dropWhile Char.isWhitespace).reverse.dropWhile
    Char.isWhitespace).reverse)

/-- Model of Python `str.lower()` for the ASCII strings handled here. -/
def pyLower (s : String) : String := String.mk (s.data.map Char.toLower)

/-- Accumulator form of `pySplit`: `acc` holds the characters of the token
in progress, reversed. -/
def pySplitAux : List Char → List Char → List String
  | [], acc => if acc = [] then [] else [String.mk acc.reverse]
  | c :: cs, acc =>
    if c.isWhitespace then
      if acc = [] then pySplitAux cs []
      else String.mk acc.reverse :: pySplitAux cs []
    else pySplitAux cs (c :: acc)

/-- Model of Python `str.split()` with no arguments: split on runs of
whitespace and discard empty tokens. -/
def pySplit (s : String) : List String := pySplitAux s.data []

/-- Decimal reading of a digit string, used by `pyInt`; `none` unless the
character list is non-empty and all digits. -/
def readDigits (cs : List Char) : Option Nat :=
  if cs ≠ [] ∧ cs.all Char.isDigit then
    some (cs.foldl (fun n c => 10 * n + (c.toNat - 48)) 0)
  else none

/-- Model of Python `int(str)` as applied to tokens produced by
`str.split()` (hence no surrounding whitespace): an optional sign followed by
decimal digits yields the value, anything else raises `ValueError`, modelled
as `none`.  Digit-group underscores, an obscure corner of `int()` irrelevant
to the inputs considered here, are not modelled. -/
def pyInt (s : String) : Option Int :=
  match s.data with
  | '+' :: rest => (readDigits rest).map (fun n => (n : Int))
  | '-' :: rest => (readDigits rest).map (fun n => -(n : Int))
  | cs => (readDigits cs).map (fun n => (n : Int))

/-! ## Receiver client (`pyshare_recv.py`) -/

/-- An anchor element of a fetched directory-listing page, as BeautifulSoup
exposes it to `list_files`: `text` is the anchor text, `href` the target
attribute, `none` when the attribute is absent (Python `a.get` returns
`None`). -/
structure Anchor where
  text : String
  href : Option String
deriving Repr, DecidableEq

/-- `list_files` of `pyshare_recv.py`, lines 8-17, with the HTTP fetch and
HTML parsing abstracted into the anchor list: keeps every anchor whose href
is present, non-empty (Python truthiness of `href` in `if href and ...`) and
does not end in `/`, as a pair of the stripped anchor text and the href, in
document order. -/
def list_files : List Anchor → List (String × String)
  | [] => []
  | a :: rest =>
    match a.href with
    | some h =>
      if h ≠ "" ∧ ¬ strEndsWith h "/" then (pyStrip a.text, h) :: list_files rest
      else list_files rest
    | none => list_files rest

/-- Whether `list_files` keeps an anchor: href present, non-empty and without
a trailing slash. -/
def keepAnchor (a : Anchor) : Bool :=
  match a.href with
  | some h => h ≠ "" && ! strEndsWith h "/"
  | none => false

/-- The entry `list_files` produces for a kept anchor. -/
def entryOf (a : Anchor) : String × String := (pyStrip a.text, a.href.getD "")

/-- The in-range check and lookup of the selection loop of `main`
(`pyshare_recv.py`, lines 61-63): a zero-based index `i` selects `files[i]`
when `0 <= i < len(files)`. -/
def pickIdx (files : List α) (i : Int) : Option α :=
  if 0 ≤ i ∧ i < (files.length : Int) then files.get? i.toNat else none

/-- The index-list branch of the selection step of `main`
(`pyshare_recv.py`, lines 54-63): each token is parsed with `int` (failures
silently skipped), converted to a zero-based index, and in-range indices
select their file. -/
def selectionFromTokens (toks : List String) (files : List α) : List α :=
  ((toks.filterMap pyInt).map (fun z => z - 1)).filterMap (pickIdx files)

/-- The selection step of `main` (`pyshare_recv.py`, lines 50-63): the
literal token `all` (case-insensitively) selects every listed file, any
other input is split into tokens and treated as 1-based indices. -/
def to_download (choice : String) (files : List α) : List α :=
  if pyLower choice = "all" then files
  else selectionFromTokens (pySplit choice) files

/-- The download loop of `main` (`pyshare_recv.py`, lines 64-70): every
selected entry is attempted; the loop body wraps each download in
`try`/`except`, so the outcome of one attempt (modelled by the
`Except`-valued `dl`) never aborts the remaining ones. -/
def attemptDownloads (dl : α → Except String String) (choice : String)
    (files : List α) : List (Except String String) :=
  (to_download choice files).map dl

/-- Model of `os.path.basename`: the part of the path after the last slash
(empty for a path ending in a slash). -/
def pyBasename (p : String) : String :=
  String.mk ((p.data.reverse.takeWhile (fun c => c ≠ '/')).reverse)

/-- Cut a string at the first occurrence of a character, keeping the part
before it. -/
def takeUntilChar (c : Char) (s : String) : String :=
  String.mk (s.data.takeWhile (fun d => d ≠ c))

/-- Drop everything up to (excluding) the first slash of a string, so that an
`authority/path` suffix of a URL yields `/path` (empty when there is no
path). -/
def afterAuthority (s : String) : String :=
  String.mk (s.data.dropWhile (fun c => c ≠ '/'))

/-- Split a character list at the first occurrence of the pattern `pat`,
returning the parts before and after it, or `none` when the pattern does
not occur. -/
def breakOn (pat : List Char) : List Char → Option (List Char × List Char)
  | [] => if pat = [] then some ([], []) else none
  | c :: cs =>
    if pat.isPrefixOf (c :: cs) then some ([], (c :: cs).drop pat.length)
    else
      match breakOn pat cs with
      | some (pre, post) => some (c :: pre, post)
      | none => none

/-- The `path` component of `urllib.parse.urlparse`, modelled for the
`scheme://authority/path` URLs with optional query and fragment that this
program builds: the fragment and query are cut off, and for a URL with a
scheme separator the path is what follows the authority; a string without a
scheme separator is treated as a bare path. -/
def urlPath (url : String) : String :=
  let core := takeUntilChar '?' (takeUntilChar '#' url)
  match breakOn "://".data core.data with
  | some (_scheme, rest) => afterAuthority (String.mk rest)
  | none => core

/-- The scheme of a URL containing a scheme separator. -/
def schemeOf (url : String) : String := takeUntilChar ':' url

/-- The `scheme://authority` part of an absolute URL. -/
def rootOf (url : String) : String :=
  match breakOn "://".data url.data with
  | some (scheme, rest) =>
    String.mk scheme ++ "://" ++ takeUntilChar '/' (String.mk rest)
  | none => url

/-- The directory part of a URL path: everything up to and including the
last slash; an empty path joins as the root. -/
def dirOf (p : String) : String :=
  if p = "" then "/"
  else String.mk ((p.data.reverse.dropWhile (fun c => c ≠ '/')).reverse)

/-- Model of `urllib.parse.urljoin` for the shapes exercised by the
receiver: an href with its own scheme separator replaces the base; a
protocol-relative href keeps the base scheme; a rooted href replaces the
base path; an empty href yields the base; otherwise the href replaces the
final segment of the base path.  Dot-segment normalisation, irrelevant to
the hrefs a directory listing emits, is not modelled. -/
def urljoin (base href : String) : String :=
  if (breakOn "://".data href.data).isSome then href
  else if strStartsWith href "//" then schemeOf base ++ ":" ++ href
  else if strStartsWith href "/" then rootOf base ++ href
  else if href = "" then base
  else rootOf base ++ dirOf (urlPath base) ++ href

/-- Model of `os.path.join` on two components: a rooted second component
wins, otherwise the components are joined with a single slash. -/
def pyJoin (a b : String) : String :=
  if strStartsWith b "/" then b
  else if a = "" then b
  else if strEndsWith a "/" then a ++ b
  else a ++ "/" ++ b

/-- `download_file` of `pyshare_recv.py`, lines 20-30, over an explicit
filesystem (a map from path to contents) and response body: resolves the
href against the base, derives the local name from the final segment of the
resolved URL path, joins it under `dest`, and writes the body there.  The
`open(path, 'wb')` write truncates any existing file at that path, so the
resulting filesystem maps the target path to the new body whatever was
there before; the function returns the path with no indication of whether a
file was overwritten. -/
def download_file (fs : String → Option String) (base href : String)
    (dest : String) (body : String) : String × (String → Option String) :=
  let url := urljoin base href
  let local_name := pyBasename (urlPath url)
  let path := pyJoin dest local_name
  (path, fun q => if q = path then some body else fs q)

/-! ## Address resolvers -/

/-- One entry of `netifaces.ifaddresses(iface)[AF_INET]` as `get_local_ip`
reads it: the value of `link.get('addr')`, `none` when absent. -/
abbrev AddrLink := Option String

/-- The acceptance test of the inner loop of `get_local_ip` (`pyshare.py`,
line 41): Python `if ip and not ip.startswith('127.')` — a truthy
(non-empty) address outside the textual loopback prefix. -/
def goodIp (ip : String) : Bool := ip ≠ "" && ! strStartsWith ip "127."

/-- The inner loop of `get_local_ip` (`pyshare.py`, lines 39-42): the first
address of an interface that passes `goodIp`. -/
def firstGoodIp : List AddrLink → Option String
  | [] => none
  | some ip :: rest => if goodIp ip then some ip else firstGoodIp rest
  | none :: rest => firstGoodIp rest

/-- The outer loop of `get_local_ip` (`pyshare.py`, lines 36-42): scan the
interfaces in enumeration order; an interface with no AF_INET family is
modelled by an empty address list. -/
def scanIfaces : List (List AddrLink) → Option String
  | [] => none
  | iface :: rest =>
    match firstGoodIp iface with
    | some ip => some ip
    | none => scanIfaces rest

/-- `get_local_ip` of `pyshare.py`, lines 33-45: `enum` is the interface
enumeration, `none` when `netifaces` raises; both the exception path and an
exhausted scan return the sentinel `?.?.?.?`.  Totality of this definition
models that the Python function never propagates an exception. -/
def get_local_ip (enum : Option (List (List AddrLink))) : String :=
  match enum with
  | none => "?.?.?.?"
  | some ifaces => (scanIfaces ifaces).getD "?.?.?.?"

/-- `get_local_ip` of `pyshare_cli.py`, lines 27-35 (identical in
`pyshare_rich.py`, lines 46-56): a UDP connect to 8.8.8.8 reports the
socket's own address (`sockAddr`, `none` when any step raises); the
exception handler returns the concrete loopback address `127.0.0.1`. -/
def get_local_ip_cli (sockAddr : Option String) : String :=
  match sockAddr with
  | some ip => ip
  | none => "127.0.0.1"

/-! ## Session controller (`PyShareCLI`, `pyshare_cli.py`) -/

/-- The host environment the controller runs against: a directory-existence
oracle (for `os.path.isdir`) and the address the resolver reports when a
server starts. -/
structure Env where
  isDir : String → Bool
  ip : String

/-- A launched server process, identified by launch order and carrying the
directory and the port it was launched with. -/
structure Srv where
  dir : String
  port : Int
  id : Nat
deriving Repr, DecidableEq

/-- The controller state of `PyShareCLI`: the stored configuration, the
server process handle (`none` when stopped) and the derived share URL. The
launch counter `nextId` gives processes their identity. -/
structure CState where
  shared_dir : String
  port : Int
  server : Option Srv
  url : String
  nextId : Nat
deriving Repr, DecidableEq

/-- The controller is running when it holds a server process. -/
def CState.running (s : CState) : Bool := s.server.isSome

/-- The share URL `start_server` computes: `http://` then the resolved
address, a colon and the port. -/
def mkUrl (env : Env) (port : Int) : String :=
  "http://" ++ env.ip ++ ":" ++ toString port

/-- `PyShareCLI.start_server` (`pyshare_cli.py`, lines 58-67; the logic of
`PyShareApp.action_start_server` and `PyShareRich.start_server` is the
same): if a live process exists, report and return unchanged; otherwise
launch a process on the stored directory and port and set the URL.  No
validation of the stored directory or port happens here. -/
def start_server (env : Env) (s : CState) : CState :=
  if s.server.isSome then s
  else
    { s with
      server := some ⟨s.shared_dir, s.port, s.nextId⟩
      url := mkUrl env s.port
      nextId := s.nextId + 1 }

/-- `PyShareCLI.stop_server` (`pyshare_cli.py`, lines 69-77): terminate the
process when alive; in every case clear the process handle and the URL. -/
def stop_server (s : CState) : CState :=
  { s with server := none, url := "" }

/-- The `dir` command branch of `PyShareCLI.repl` (`pyshare_cli.py`, lines
98-110; same logic as `PyShareRich.change_dir`): when the argument is an
existing directory, store it and, if a server is running, stop then start;
otherwise report and change nothing. -/
def set_dir (env : Env) (s : CState) (path : String) : CState :=
  if env.isDir path then
    let s1 := { s with shared_dir := path }
    if s1.server.isSome then start_server env (stop_server s1) else s1
  else s

/-- The `port` command branch of `PyShareCLI.repl` (`pyshare_cli.py`, lines
111-127; same logic as `PyShareRich.change_port`): parse the token with
`int`; for a value in 1024..65535 store it and, if a server is running,
stop then start; otherwise report and change nothing. -/
def set_port (env : Env) (s : CState) (tok : String) : CState :=
  match pyInt tok with
  | some p =>
    if 1024 ≤ p ∧ p ≤ 65535 then
      let s1 := { s with port := p }
      if s1.server.isSome then start_server env (stop_server s1) else s1
    else s
  | none => s

/-- One REPL command of `PyShareCLI.repl`; `readOnly` covers the commands
(`url`, `qr`, `help`, unknown) that never change controller state. -/
inductive Op where
  | start
  | stop
  | dir (path : String)
  | portCmd (tok : String)
  | readOnly

/-- One step of the REPL command dispatch (`pyshare_cli.py`, lines 94-135). -/
def step (env : Env) (s : CState) : Op → CState
  | .start => start_server env s
  | .stop => stop_server s
  | .dir p => set_dir env s p
  | .portCmd t => set_port env s t
  | .readOnly => s

/-- `PyShareCLI.__init__` (`pyshare_cli.py`, lines 51-56): defaults of the
current working directory and port 8000, no process and empty URL, then an
immediate `start_server`. -/
def initCLI (env : Env) (cwd : String) : CState :=
  start_server env
    { shared_dir := cwd, port := 8000, server := none, url := "", nextId := 0 }

/-- A whole controller lifetime: construction followed by a sequence of
REPL commands. -/
def run (env : Env) (cwd : String) (ops : List Op) : CState :=
  ops.foldl (step env) (initCLI env cwd)

/-- The URL invariant of claim C2: the URL is non-empty exactly when a
server is held, and while running it is the `http://address:port` string
for the current port. -/
def UrlInv (env : Env) (s : CState) : Prop :=
  (s.url ≠ "" ↔ s.server.isSome = true) ∧
  (s.server.isSome = true → s.url = mkUrl env s.port)

/-! ## Helper lemmas -/

lemma firstGoodIp_eq_find (links : List AddrLink) :
    firstGoodIp links = (links.filterMap id).find? goodIp := by
  induction links with
  | nil => rfl
  | cons l rest ih =>
    cases l with
    | none => simpa [firstGoodIp, List.filterMap_cons] using ih
    | some ip =>
      by_cases hg : goodIp ip = true
      · simp [firstGoodIp, hg, List.filterMap_cons, List.find?_cons_of_pos _ hg]
      · simp [firstGoodIp, hg, List.filterMap_cons, List.find?_cons_of_neg _ hg, ih]

lemma scanIfaces_eq_find (ifaces : List (List AddrLink)) :
    scanIfaces ifaces = (ifaces.flatten.filterMap id).find? goodIp := by
  induction ifaces with
  | nil => rfl
  | cons iface rest ih =>
    rw [scanIfaces, List.flatten_cons, List.filterMap_append, List.find?_append,
      ← firstGoodIp_eq_find, ← ih]
    cases firstGoodIp iface <;> rfl

lemma pickIdx_isSome_of (files : List α) (i : Int)
    (h : 0 ≤ i ∧ i < (files.length : Int)) : (pickIdx files i).isSome = true := by
  unfold pickIdx
  rw [if_pos h]
  have hlt : i.toNat < files.length := by omega
  simp [List.get?_eq_getElem?, List.getElem?_eq_getElem hlt]

lemma selection_length (files : List α) (zs : List Int) :
    ((zs.map (fun z => z - 1)).filterMap (pickIdx files)).length
      = zs.countP (fun z => decide (1 ≤ z ∧ z ≤ (files.length : Int))) := by
  induction zs with
  | nil => rfl
  | cons z zs ih =>
    cases hp : pickIdx files (z - 1) with
    | none =>
      have hnr : ¬ (0 ≤ z - 1 ∧ z - 1 < (files.length : Int)) := by
        intro hcon
        have hsm := pickIdx_isSome_of files (z - 1) hcon
        rw [hp] at hsm
        simp at hsm
      have hdec : decide (1 ≤ z ∧ z ≤ (files.length : Int)) = false := by
        simp only [decide_eq_false_iff_not]
        omega
      rw [List.map_cons, List.filterMap_cons_none hp, List.countP_cons, ih]
      simp [hdec]
    | some a =>
      have hin : 0 ≤ z - 1 ∧ z - 1 < (files.length : Int) := by
        by_contra hcon
        unfold pickIdx at hp
        rw [if_neg hcon] at hp
        exact Option.noConfusion hp
      have hdec : decide (1 ≤ z ∧ z ≤ (files.length : Int)) = true := by
        simp only [decide_eq_true_eq]
        omega
      rw [List.map_cons, List.filterMap_cons_some hp, List.countP_cons, List.length_cons, ih]
      simp [hdec]

/-! ## Claims -/

/-- C4 (counterexample): the claim says the address resolver degrades to a
sentinel clearly marked as unknown and never fabricates a concrete address,
citing both resolver implementations; but the resolver of `pyshare_cli.py`
and `pyshare_rich.py` returns the concrete loopback address `127.0.0.1` on
enumeration failure — an address inside 127.0.0.0/8 and not the sentinel
the TUI resolver uses. -/
theorem c4_counterexample :
    get_local_ip_cli none = "127.0.0.1" ∧
    strStartsWith (get_local_ip_cli none) "127." = true ∧
    get_local_ip_cli none ≠ get_local_ip none := by
  exact ⟨rfl, rfl, by decide⟩

/-- C4 (amended): the TUI resolver (`pyshare.py`) returns the first
enumerated address that is non-empty and outside the textual loopback
prefix `127.`, and the sentinel `?.?.?.?` when the scan is exhausted or
enumeration raises (totality models that it never throws); the CLI and Rich
resolver instead reports the outbound socket address and falls back to the
concrete address `127.0.0.1` on failure. -/
theorem c4_resolver (ifaces : List (List AddrLink)) :
    get_local_ip (some ifaces)
      = ((ifaces.flatten.filterMap id).find? goodIp).getD "?.?.?.?" ∧
    get_local_ip none = "?.?.?.?" ∧
    get_local_ip_cli none = "127.0.0.1" := by
  refine ⟨?_, rfl, rfl⟩
  show (scanIfaces ifaces).getD "?.?.?.?" = _
  rw [scanIfaces_eq_find]

/-- C5 (counterexample): the claim says `list_files` returns exactly the
anchors whose href does not end in `/`; but an anchor whose href attribute
is the empty string — which does not end in `/` — is excluded by the Python
truthiness test `if href and not href.endswith('/')`. -/
theorem c5_counterexample :
    strEndsWith "" "/" = false ∧
    list_files [{ text := "x", href := some "" }] = [] := by
  exact ⟨rfl, rfl⟩

/-- C5 (amended): `list_files` returns exactly the anchors that carry a
non-empty href not ending in `/`, as pairs of the stripped anchor text and
the href, in document order; anchors with a trailing-slash, empty or absent
href are excluded, and the result is empty when no anchor qualifies. -/
theorem c5_list_files_filter_map (anchors : List Anchor) :
    list_files anchors = (anchors.filter keepAnchor).map entryOf := by
  induction anchors with
  | nil => rfl
  | cons a rest ih =>
    cases ha : a.href with
    | none =>
      have hk : keepAnchor a = false := by simp [keepAnchor, ha]
      simp [list_files, ha, List.filter_cons, hk, ih]
    | some h =>
      by_cases hcond : h ≠ "" ∧ ¬ strEndsWith h "/"
      · have hk : keepAnchor a = true := by
          simp only [keepAnchor, ha, Bool.and_eq_true, ne_eq, decide_eq_true_eq,
            Bool.not_eq_true']
          exact ⟨hcond.1, by simpa using hcond.2⟩
        have he : entryOf a = (pyStrip a.text, h) := by simp [entryOf, ha]
        simp [list_files, ha, hcond, List.filter_cons, hk, he, ih]
      · have hk : keepAnchor a = false := by
          cases hkb : keepAnchor a with
          | false => rfl
          | true =>
            exfalso
            apply hcond
            simp only [keepAnchor, ha, Bool.and_eq_true, ne_eq, decide_eq_true_eq,
              Bool.not_eq_true'] at hkb
            exact ⟨hkb.1, by simp [hkb.2]⟩
        simp [list_files, ha, hcond, List.filter_cons, hk, ih]
        intro h1
        by_contra h2
        exact hcond ⟨h1, h2⟩

/-- C6: selecting `all` (case-insensitively) attempts one download per
listed file; any other selection attempts one download per
whitespace-separated token that parses as an integer in 1..n, out-of-range
indices silently skipped; and the number of attempts is independent of the
outcome of the individual downloads, so one failure never aborts the
remaining selections. -/
theorem c6_selection (files : List String)
    (dl dl' : String → Except String String) (choice : String)
    (hne : pyLower choice ≠ "all") :
    (attemptDownloads dl "all" files).length = files.length ∧
    (attemptDownloads dl choice files).length
      = ((pySplit choice).filterMap pyInt).countP
          (fun z => decide (1 ≤ z ∧ z ≤ (files.length : Int))) ∧
    (attemptDownloads dl choice files).length
      = (attemptDownloads dl' choice files).length := by
  refine ⟨?_, ?_, ?_⟩
  · show (files.map dl).length = files.length
    exact List.length_map files dl
  · show ((to_download choice files).map dl).length = _
    rw [List.length_map, to_download, if_neg hne]
    exact selection_length files ((pySplit choice).filterMap pyInt)
  · show ((to_download choice files).map dl).length
      = ((to_download choice files).map dl').length
    rw [List.length_map, List.length_map]

/-- C6 (witness): on a 3-entry listing, `all` attempts 3 downloads and the
selection `1 5` attempts exactly 1, even when every download fails. -/
theorem c6_witness :
    pyLower "1 5" ≠ "all" ∧
    (attemptDownloads (fun _ => Except.error "boom") "all" ["a", "b", "c"]).length = 3 ∧
    (attemptDownloads (fun _ => Except.error "boom") "1 5" ["a", "b", "c"]).length
      = ((pySplit "1 5").filterMap pyInt).countP
          (fun z => decide (1 ≤ z ∧ z ≤ ((["a", "b", "c"] : List String).length : Int))) := by
  have h := c6_selection ["a", "b", "c"] (fun _ => Except.error "boom")
    (fun _ => Except.error "boom") "1 5" (by decide)
  exact ⟨by decide, h.1, h.2.1⟩

/-- C9: the local target of a download is `dest` joined with the final path
segment of the href resolved against the base URL; the write maps that path
to the new body whatever the filesystem held there before (an existing file
is silently truncated and overwritten, with no report), and no other path
changes. -/
theorem c9_download_path_overwrite (fs : String → Option String)
    (base href dest body : String) :
    (download_file fs base href dest body).1
      = pyJoin dest (pyBasename (urlPath (urljoin base href))) ∧
    (download_file fs base href dest body).2
        ((download_file fs base href dest body).1) = some body ∧
    ∀ q, q ≠ (download_file fs base href dest body).1 →
      (download_file fs base href dest body).2 q = fs q := by
  refine ⟨rfl, by simp [download_file], ?_⟩
  intro q hq
  have hq' : q ≠ pyJoin dest (pyBasename (urlPath (urljoin base href))) := hq
  simp only [download_file]
  rw [if_neg hq']

/-- C9 (witness): downloading `a.txt` from `http://10.0.0.5:8000/` into `.`
targets `./a.txt`, overwrites the old contents there and leaves `./b.txt`
alone. -/
theorem c9_witness :
    (download_file (fun _ => some "old") "http://10.0.0.5:8000/" "a.txt" "." "new").1
      = "./a.txt" ∧
    (download_file (fun _ => some "old") "http://10.0.0.5:8000/" "a.txt" "." "new").2
        "./a.txt" = some "new" ∧
    (download_file (fun _ => some "old") "http://10.0.0.5:8000/" "a.txt" "." "new").2
        "./b.txt" = some "old" := by
  have h := c9_download_path_overwrite (fun _ => some "old")
    "http://10.0.0.5:8000/" "a.txt" "." "new"
  refine ⟨h.1.trans (by decide), h.2.1, h.2.2 "./b.txt" (by decide)⟩

/-- C10: a whitespace-separated token of the selection input that does not
parse as an integer is silently dropped, with no effect on the files
selected by the remaining tokens; in particular the input `two 2` selects
exactly the second listed file. -/
theorem c10_nonint_tokens (t : String) (ht : pyInt t = none)
    (toks1 toks2 : List String) (files : List String) :
    selectionFromTokens (toks1 ++ t :: toks2) files
      = selectionFromTokens (toks1 ++ toks2) files ∧
    ∀ (a b : String) (rest : List String),
      to_download "two 2" (a :: b :: rest) = [b] := by
  constructor
  · simp [selectionFromTokens, List.filterMap_append, List.filterMap_cons, ht]
  · intro a b rest
    rw [to_download, if_neg (by decide)]
    have hs : pySplit "two 2" = ["two", "2"] := rfl
    have hfm : (["two", "2"].filterMap pyInt) = [2] := rfl
    have hp : pickIdx (a :: b :: rest) 1 = some b := by
      unfold pickIdx
      rw [if_pos]
      · rfl
      · refine ⟨by omega, ?_⟩
        simp only [List.length_cons]
        omega
    rw [hs]
    simp [selectionFromTokens, hfm, List.filterMap_cons, hp]

/-- C10 (witness): the token `two` parses as no integer and dropping it
does not change the selection; `two 2` on a 3-entry listing selects exactly
the second entry. -/
theorem c10_witness :
    pyInt "two" = none ∧
    selectionFromTokens ["two", "2"] ["x", "y", "z"]
      = selectionFromTokens ["2"] ["x", "y", "z"] ∧
    to_download "two 2" ["x", "y", "z"] = ["y"] := by
  have h := c10_nonint_tokens "two" (by decide) [] ["2"] ["x", "y", "z"]
  exact ⟨by decide, h.1, h.2 "x" "y" ["z"]⟩

/-! ## Controller lemmas -/

lemma mkUrl_ne_empty (env : Env) (p : Int) : mkUrl env p ≠ "" := by
  intro h
  have h1 : (mkUrl env p).length = 0 := by rw [h]; rfl
  unfold mkUrl at h1
  rw [String.length_append, String.length_append, String.length_append] at h1
  have h2 : ("http://" : String).length = 7 := rfl
  omega

lemma urlInv_stop (env : Env) (s : CState) : UrlInv env (stop_server s) := by
  constructor
  · simp [stop_server]
  · intro h
    simp [stop_server] at h

lemma urlInv_start (env : Env) (s : CState) (hs : UrlInv env s) :
    UrlInv env (start_server env s) := by
  unfold start_server
  split
  · exact hs
  · exact ⟨⟨fun _ => rfl, fun _ => mkUrl_ne_empty env s.port⟩, fun _ => rfl⟩

lemma urlInv_set_dir (env : Env) (s : CState) (p : String) (hs : UrlInv env s) :
    UrlInv env (set_dir env s p) := by
  unfold set_dir
  split
  · simp only
    split
    · exact urlInv_start env _ (urlInv_stop env _)
    · exact hs
  · exact hs

lemma urlInv_set_port (env : Env) (s : CState) (t : String) (hs : UrlInv env s) :
    UrlInv env (set_port env s t) := by
  unfold set_port
  cases pyInt t with
  | none => exact hs
  | some p =>
    simp only
    split
    · split
      · exact urlInv_start env _ (urlInv_stop env _)
      · rename_i hnr
        exact ⟨hs.1, fun hr => absurd hr hnr⟩
    · exact hs

lemma urlInv_step (env : Env) (s : CState) (op : Op) (hs : UrlInv env s) :
    UrlInv env (step env s op) := by
  cases op with
  | start => exact urlInv_start env s hs
  | stop => exact urlInv_stop env s
  | dir p => exact urlInv_set_dir env s p hs
  | portCmd t => exact urlInv_set_port env s t hs
  | readOnly => exact hs

lemma urlInv_foldl (env : Env) (ops : List Op) (s : CState) (hs : UrlInv env s) :
    UrlInv env (ops.foldl (step env) s) := by
  induction ops generalizing s with
  | nil => exact hs
  | cons op ops ih => exact ih (step env s op) (urlInv_step env s op hs)

lemma urlInv_init (env : Env) (cwd : String) : UrlInv env (initCLI env cwd) := by
  apply urlInv_start
  constructor
  · simp
  · intro h
    simp at h

/-- An environment whose filesystem oracle rejects every path. -/
def badEnv : Env := { isDir := fun _ => false, ip := "10.0.0.5" }

/-- A stopped controller whose stored directory the filesystem oracle
rejects (it was removed after being configured). -/
def stoppedBadDir : CState :=
  { shared_dir := "/no/such/dir", port := 8000, server := none, url := "", nextId := 0 }

/-- An environment whose filesystem oracle accepts every path. -/
def okEnv : Env := { isDir := fun _ => true, ip := "10.0.0.5" }

/-- A controller constructed on directory `/srv/old`: its constructor has
started a server, so it is running. -/
def runningState : CState := initCLI okEnv "/srv/old"

/-! ## Controller claims -/

/-- C1 (counterexample): the claim says `start()` validates the configured
root directory before launching and on failure leaves the controller
Stopped with no server launched; but on a stopped controller whose stored
directory the filesystem rejects, `start_server` launches a server anyway
and transitions to running — no front end validates inside `start`. -/
theorem c1_counterexample :
    badEnv.isDir stoppedBadDir.shared_dir = false ∧
    stoppedBadDir.running = false ∧
    (start_server badEnv stoppedBadDir).running = true ∧
    (start_server badEnv stoppedBadDir).server
      = some { dir := "/no/such/dir", port := 8000, id := 0 } := by
  exact ⟨rfl, rfl, rfl, rfl⟩

/-- C1 (amended): `start_server` on a stopped controller performs no
validation at all: it unconditionally launches a server with the stored
directory and port and sets the share URL, and its result does not consult
the directory oracle (two environments differing only in the oracle give
the same result).  Directory and port validity are enforced only by the
configuration commands. -/
theorem c1_start_no_validation (env env' : Env) (s : CState)
    (hstop : s.server = none) (hip : env'.ip = env.ip) :
    (start_server env s).server = some ⟨s.shared_dir, s.port, s.nextId⟩ ∧
    (start_server env s).url = mkUrl env s.port ∧
    start_server env' s = start_server env s := by
  have h1 : s.server.isSome = false := by rw [hstop]; rfl
  refine ⟨?_, ?_, ?_⟩ <;>
    simp [start_server, h1, mkUrl, hip]

/-- C1 (witness): the zero-validation start at the concrete rejected
directory. -/
theorem c1_witness :
    stoppedBadDir.server = none ∧
    (start_server badEnv stoppedBadDir).server
      = some { dir := "/no/such/dir", port := 8000, id := 0 } := by
  have h := c1_start_no_validation badEnv badEnv stoppedBadDir rfl rfl
  exact ⟨rfl, h.1⟩

/-- C2: along every controller lifetime (construction followed by any
sequence of REPL commands, in the deterministic model where the server
process lives exactly while the controller holds it), the share URL is
non-empty exactly when the controller is running, and while running it is
the string `http://` ++ address ++ `:` ++ port for the current port. -/
theorem c2_url_iff_running (env : Env) (cwd : String) (ops : List Op) :
    ((run env cwd ops).url ≠ "" ↔ (run env cwd ops).running = true) ∧
    ((run env cwd ops).running = true →
      (run env cwd ops).url = mkUrl env (run env cwd ops).port) := by
  exact urlInv_foldl env ops (initCLI env cwd) (urlInv_init env cwd)

/-- C2 (witness): the invariant evaluated on a concrete lifetime that stops
and restarts the server. -/
theorem c2_witness :
    ((run okEnv "/srv/old" [Op.stop, Op.start]).url ≠ ""
      ↔ (run okEnv "/srv/old" [Op.stop, Op.start]).running = true) := by
  exact (c2_url_iff_running okEnv "/srv/old" [Op.stop, Op.start]).1

/-- C3: on a running controller, a valid `dir` command (existing directory)
or a valid `port` command (integer token in 1024..65535) replaces the
stored configuration and stops then starts, so that afterwards the
controller is running and the launched server carries exactly the new
directory and port. -/
theorem c3_reconfigure_running (env : Env) (s : CState) (p : String)
    (tok : String) (v : Int) (hrun : s.running = true) :
    (env.isDir p = true →
      (set_dir env s p).running = true ∧
      (set_dir env s p).server = some ⟨p, s.port, s.nextId⟩ ∧
      (set_dir env s p).shared_dir = p) ∧
    (pyInt tok = some v → 1024 ≤ v → v ≤ 65535 →
      (set_port env s tok).running = true ∧
      (set_port env s tok).server = some ⟨s.shared_dir, v, s.nextId⟩ ∧
      (set_port env s tok).port = v) := by
  constructor
  · intro hdir
    have h1 : ({ s with shared_dir := p } : CState).server.isSome = true := hrun
    rw [set_dir, if_pos hdir, if_pos h1]
    exact ⟨rfl, rfl, rfl⟩
  · intro hpi hv1 hv2
    have h1 : ({ s with port := v } : CState).server.isSome = true := hrun
    rw [set_port, hpi]
    simp only
    rw [if_pos ⟨hv1, hv2⟩, if_pos h1]
    exact ⟨rfl, rfl, rfl⟩

/-- C3 (witness): reconfiguring a concrete running controller to directory
`/srv/new` and to port 9090 each restarts the server on the new
configuration. -/
theorem c3_witness :
    runningState.running = true ∧
    okEnv.isDir "/srv/new" = true ∧
    pyInt "9090" = some 9090 ∧
    (set_dir okEnv runningState "/srv/new").server
      = some { dir := "/srv/new", port := 8000, id := 1 } ∧
    (set_port okEnv runningState "9090").server
      = some { dir := "/srv/old", port := 9090, id := 1 } := by
  have h := c3_reconfigure_running okEnv runningState "/srv/new" "9090" 9090 rfl
  exact ⟨rfl, rfl, by decide, (h.1 rfl).2.1,
    (h.2 (by decide) (by decide) (by decide)).2.1⟩

/-- C7: a `dir` command whose argument the filesystem rejects changes
nothing at all: the stored directory, the stored port, the server handle
and the URL are all exactly as before. -/
theorem c7_invalid_dir_noop (env : Env) (s : CState) (p : String)
    (h : env.isDir p = false) : set_dir env s p = s := by
  simp [set_dir, h]

/-- C7 (witness): the rejected `dir` command on a concrete controller
leaves the state identical. -/
theorem c7_witness : set_dir badEnv stoppedBadDir "/nope" = stoppedBadDir := by
  exact c7_invalid_dir_noop badEnv stoppedBadDir "/nope" rfl

/-- C8: `start_server` on a running controller is a complete no-op: the
resulting state — server handle, URL, configuration, launch counter — is
identical to the state before the call, and in particular no new server is
launched. -/
theorem c8_start_idempotent (env : Env) (s : CState)
    (h : s.running = true) : start_server env s = s := by
  have h' : s.server.isSome = true := h
  unfold start_server
  rw [if_pos h']

/-- C8 (witness): a second `start_server` on the concrete running
controller returns it unchanged. -/
theorem c8_witness : start_server okEnv runningState = runningState := by
  exact c8_start_idempotent okEnv runningState rfl

end PyShare
